import Mathlib

/-!
Shallow embedding of `src/bs-modal.ts` (piayo/lit-bs-modal): a Bootstrap-style
modal custom element built on Lit.

The module consists of a few stateless helper functions (`tick`, `cancelAnims`,
`showAnim`, `hideAnim`, `getFocusElement`, `createEvent`) and one component
class `BsModalElement` with two boolean flags `isOpen`/`isClosed`, string
attributes `backdrop`/`keyboard`/`width` and a numeric `animMsec`, public
methods `show`/`hide`/`toggle`, DOM event handlers, and animation-completion
continuations.

The embedding models:
  * the settlement of the promises returned by `showAnim`/`hideAnim` as a
    function of the underlying animation outcome (natural finish vs abort);
  * the component instance together with the ambient DOM facts it touches
    (body class list, focused element, running animations on the container,
    pending requestAnimationFrame callbacks) as a state record `ModalState`;
  * each synchronous entry point (method call, DOM event handler,
    animation-finish continuation, animation-frame callback) as a `Label`,
    with a total executable `step` function, and reachability as the
    reflexive-transitive closure of `step` from the freshly constructed
    element.

Event dispatch and animation starts are recorded in an ordered trace so that
ordering claims are statable.
-/

namespace BsModal

/-- Settlement state of a JS promise: pending, fulfilled with a value, or
rejected. -/
inductive PromiseState (α : Type) where
  | pending : PromiseState α
  | resolved : α → PromiseState α
  | rejected : PromiseState α
deriving DecidableEq

/-- Outcome of a Web Animations API animation: it either completes naturally
or is aborted (canceled), in which case its `finished` promise rejects with an
AbortError. -/
inductive AnimOutcome where
  | finished : AnimOutcome
  | aborted : AnimOutcome
deriving DecidableEq

/-- `anim.finished`: fulfills with the animation handle on natural completion,
rejects (AbortError) when the animation is canceled. Animation handles are
modelled by their numeric id. -/
def animFinished (anim : Nat) (o : AnimOutcome) : PromiseState Nat :=
  match o with
  | AnimOutcome.finished => PromiseState.resolved anim
  | AnimOutcome.aborted => PromiseState.rejected

/-- The executor of the promise returned by `showAnim`/`hideAnim` runs
`anim.finished.then(() => resolve(anim)).catch(() => {})`: `resolve` is called
with the handle exactly when `anim.finished` fulfills; the catch handler is a
no-op, so `resolve` is never called on rejection. Returns the argument passed
to `resolve`, if any. -/
def animPromiseExecutorResolve (finished : PromiseState Nat) : Option Nat :=
  match finished with
  | PromiseState.resolved a => some a
  | PromiseState.rejected => none
  | PromiseState.pending => none

/-- A promise built with `new Promise((resolve) => ...)` where `reject` is
never taken: it fulfills iff `resolve` was called, and can never reject. -/
def settleByResolve (r : Option Nat) : PromiseState Nat :=
  match r with
  | some a => PromiseState.resolved a
  | none => PromiseState.pending

/-- Settlement of the promise returned by `showAnim ele msec` as a function of
the entrance animation's outcome (the keyframes/duration do not affect
settlement). -/
def showAnimResult (anim : Nat) (o : AnimOutcome) : PromiseState Nat :=
  settleByResolve (animPromiseExecutorResolve (animFinished anim o))

/-- Settlement of the promise returned by `hideAnim ele msec`; its promise
wiring is identical to `showAnim`'s. -/
def hideAnimResult (anim : Nat) (o : AnimOutcome) : PromiseState Nat :=
  settleByResolve (animPromiseExecutorResolve (animFinished anim o))

/-- The two animations ever started on the container: the entrance animation
(from `showAnim`, continuation dispatches `shown`) and the exit animation
(from `hideAnim`, continuation closes and dispatches `hidden`). -/
inductive AnimKind where
  | entrance : AnimKind
  | exit : AnimKind
deriving DecidableEq

/-- An animation currently running on the container (an element of
`container.getAnimations()`), identified by a fresh numeric id. -/
structure RunningAnim where
  id : Nat
  kind : AnimKind
deriving DecidableEq

/-- What the document's keyboard focus can rest on: the modal element itself
or some other element (identified by a number). -/
inductive FocusTarget where
  | modal : FocusTarget
  | elem : Nat → FocusTarget
deriving DecidableEq

/-- Observable actions, recorded in order: lifecycle event dispatches and
animation starts on the container. -/
inductive Act where
  | evShow : Act
  | evShown : Act
  | evHide : Act
  | evHidden : Act
  | animStart : AnimKind → Act
deriving DecidableEq

/-- The state of one `BsModalElement` instance together with the ambient DOM
facts the component reads and writes. -/
structure ModalState where
  /-- `this.isOpen` -/
  isOpen : Bool
  /-- `this.isClosed` -/
  isClosed : Bool
  /-- whether `document.body.classList` contains `'modal-open'` -/
  bodyModalOpen : Bool
  /-- `document.activeElement` (`none` = no focused element) -/
  focused : Option FocusTarget
  /-- `this._prevFocusElement` -/
  prevFocusElement : Option FocusTarget
  /-- `this.container.getAnimations()` -/
  containerAnims : List RunningAnim
  /-- fresh id supply for newly created animations -/
  nextAnimId : Nat
  /-- number of pending `tick` (requestAnimationFrame) callbacks scheduled by
  `show` -/
  ticks : Nat
  /-- `this.scrollTop` -/
  scrollTop : Nat
  /-- ordered log of dispatched lifecycle events and animation starts -/
  trace : List Act
  /-- `this.backdrop` (string attribute, initializer `'true'`) -/
  backdrop : String
  /-- `this.keyboard` (string attribute, initializer `'true'`) -/
  keyboard : String
deriving DecidableEq

/-- A freshly constructed element: flags initialized `isOpen = false`,
`isClosed = true`, attribute properties at their initializers
(`backdrop = 'true'`, `keyboard = 'true'`), no running animations, nothing
dispatched yet. `focused` is whatever element the document currently
focuses. -/
def initState (focused : Option FocusTarget) : ModalState :=
  { isOpen := false
    isClosed := true
    bodyModalOpen := false
    focused := focused
    prevFocusElement := none
    containerAnims := []
    nextAnimId := 0
    ticks := 0
    scrollTop := 0
    trace := []
    backdrop := "true"
    keyboard := "true" }

/-- `cancelAnims(this.container)`: cancels every animation currently running
on the container, leaving none running. -/
def cancelAnims (s : ModalState) : ModalState :=
  { s with containerAnims := [] }

/-- `getFocusElement()`: `document.activeElement || undefined`. -/
def getFocusElement (s : ModalState) : Option FocusTarget :=
  s.focused

namespace BsModalElement

/-- `show()`: rejects when already open; otherwise captures the focused
element, flips the flags, marks the body, cancels running animations,
dispatches `show`, starts the entrance animation (whose continuation
dispatches `shown`), and schedules a tick that resets scroll and focuses the
modal. Returns the new state and the method's boolean result. -/
def «show» (s : ModalState) : ModalState × Bool :=
  if s.isOpen then
    (s, false)
  else
    let s1 := { s with prevFocusElement := getFocusElement s }
    let s2 := { s1 with isOpen := true, isClosed := false }
    let s3 := { s2 with bodyModalOpen := true }
    let s4 := cancelAnims s3
    let s5 := { s4 with trace := s4.trace ++ [Act.evShow] }
    let s6 := { s5 with
      containerAnims := s5.containerAnims ++ [RunningAnim.mk s5.nextAnimId AnimKind.entrance]
      nextAnimId := s5.nextAnimId + 1
      trace := s5.trace ++ [Act.animStart AnimKind.entrance] }
    let s7 := { s6 with ticks := s6.ticks + 1 }
    (s7, true)

/-- `hide()`: rejects when `isOpen` is false; otherwise unmarks the body,
clears `isOpen`, cancels running animations, dispatches `hide`, and starts the
exit animation (whose continuation sets `isClosed`, restores focus and
dispatches `hidden`). -/
def hide (s : ModalState) : ModalState × Bool :=
  if !s.isOpen then
    (s, false)
  else
    let s1 := { s with bodyModalOpen := false }
    let s2 := { s1 with isOpen := false }
    let s3 := cancelAnims s2
    let s4 := { s3 with trace := s3.trace ++ [Act.evHide] }
    let s5 := { s4 with
      containerAnims := s4.containerAnims ++ [RunningAnim.mk s4.nextAnimId AnimKind.exit]
      nextAnimId := s4.nextAnimId + 1
      trace := s4.trace ++ [Act.animStart AnimKind.exit] }
    (s5, true)

/-- `toggle()`: `this.isOpen ? this.hide() : this.show()`. -/
def toggle (s : ModalState) : ModalState × Bool :=
  if s.isOpen then hide s else «show» s

/-- Continuation attached to an animation's promise: the entrance animation's
`.then` dispatches `shown`; the exit animation's `.then` sets
`isClosed = true`, refocuses `_prevFocusElement` when present, and dispatches
`hidden`. -/
def finishCont (k : AnimKind) (s : ModalState) : ModalState :=
  match k with
  | AnimKind.entrance => { s with trace := s.trace ++ [Act.evShown] }
  | AnimKind.exit =>
    let s1 := { s with isClosed := true }
    let s2 :=
      match s1.prevFocusElement with
      | some e => { s1 with focused := some e }
      | none => s1
    { s2 with trace := s2.trace ++ [Act.evHidden] }

/-- `_clickHandler(event)`: hides when the click target matches
`[data-dismiss='modal']`. -/
def clickHandler (targetMatchesDismiss : Bool) (s : ModalState) : ModalState :=
  if targetMatchesDismiss then (hide s).1 else s

/-- `_clickBackdropHandler()`: hides only when `this.backdrop === 'true'`. -/
def clickBackdropHandler (s : ModalState) : ModalState :=
  if s.backdrop = "true" then (hide s).1 else s

/-- `_keyHandler(event)`: hides only when `this.keyboard === 'true'` and the
key is Escape/Esc. -/
def keyHandler (key : String) (s : ModalState) : ModalState :=
  if s.keyboard = "true" ∧ (key = "Escape" ∨ key = "Esc") then (hide s).1 else s

/-- `_focusinHandler(event)`: while open, focus landing on a target outside
the modal's subtree is forced back to the modal. -/
def focusinHandler (target : Option FocusTarget) (insideModal : Bool)
    (s : ModalState) : ModalState :=
  if s.isOpen ∧ target.isSome ∧ ¬insideModal then
    { s with focused := some FocusTarget.modal }
  else
    s

end BsModalElement

/-- The synchronous entry points of the component: public method calls, DOM
event handler invocations, attribute writes, a running animation finishing
naturally, and a pending animation-frame callback firing. -/
inductive Label where
  | callShow : Label
  | callHide : Label
  | callToggle : Label
  | clickDismiss : Bool → Label
  | clickBackdrop : Label
  | keydown : String → Label
  | focusin : Option FocusTarget → Bool → Label
  | setBackdrop : String → Label
  | setKeyboard : String → Label
  | finish : Nat → Label
  | tickFire : Label

/-- One synchronous turn of the event loop: runs the entry point designated by
the label. A `finish id` turn fires the completion continuation of the running
animation with that id, removing it from the container (an animation that was
canceled is no longer running, so its continuation can never fire). A
`tickFire` turn runs one pending `tick` callback (`scrollTop = 0`, focus the
modal). -/
def step (s : ModalState) (l : Label) : ModalState :=
  match l with
  | Label.callShow => (BsModalElement.«show» s).1
  | Label.callHide => (BsModalElement.hide s).1
  | Label.callToggle => (BsModalElement.toggle s).1
  | Label.clickDismiss m => BsModalElement.clickHandler m s
  | Label.clickBackdrop => BsModalElement.clickBackdropHandler s
  | Label.keydown key => BsModalElement.keyHandler key s
  | Label.focusin t inside => BsModalElement.focusinHandler t inside s
  | Label.setBackdrop v => { s with backdrop := v }
  | Label.setKeyboard v => { s with keyboard := v }
  | Label.finish id =>
    match s.containerAnims.find? (fun a => a.id == id) with
    | some a =>
      BsModalElement.finishCont a.kind
        { s with containerAnims := s.containerAnims.filter (fun a => !(a.id == id)) }
    | none => s
  | Label.tickFire =>
    if s.ticks = 0 then s
    else { s with ticks := s.ticks - 1, scrollTop := 0, focused := some FocusTarget.modal }

/-- States reachable from a freshly constructed element by any sequence of
turns. -/
inductive Reachable : ModalState → Prop where
  | init (focused : Option FocusTarget) : Reachable (initState focused)
  | step {s : ModalState} (l : Label) : Reachable s → Reachable (step s l)

end BsModal
namespace BsModal

/-- Inductive invariant tying the two flags to the animations running on the
container. -/
def Inv (s : ModalState) : Prop :=
  (s.isOpen = false ∨ s.isClosed = false) ∧
  s.containerAnims.length ≤ 1 ∧
  (∀ a ∈ s.containerAnims, a.id < s.nextAnimId) ∧
  (∀ a ∈ s.containerAnims, a.kind = AnimKind.entrance → s.isOpen = true ∧ s.isClosed = false) ∧
  (∀ a ∈ s.containerAnims, a.kind = AnimKind.exit → s.isOpen = false ∧ s.isClosed = false)

/-- Concrete scenario, step 0: a fresh modal in a document where element 0
currently has focus. -/
def sInit : ModalState := initState (some (FocusTarget.elem 0))

/-- Concrete scenario, step 1: after an accepted `show()` (entrance animation
id 0 in flight). -/
def sOpen : ModalState := step sInit Label.callShow

/-- Concrete scenario, step 2: `hide()` called while the entrance animation is
still in flight — the transient closing state (exit animation id 1 in
flight). -/
def sClosing : ModalState := step sOpen Label.callHide

/-- Concrete scenario, step 3: the exit animation (id 1) completes
naturally. -/
def sClosed : ModalState := step sClosing (Label.finish 1)

theorem inv_init (f : Option FocusTarget) : Inv (initState f) := by
  simp [Inv, initState]

theorem show_of_open {s : ModalState} (h : s.isOpen = true) :
    BsModalElement.«show» s = (s, false) := by
  simp [BsModalElement.«show», h]

theorem show_of_closed {s : ModalState} (h : s.isOpen = false) :
    BsModalElement.«show» s =
      ({ s with
          prevFocusElement := s.focused
          isOpen := true
          isClosed := false
          bodyModalOpen := true
          containerAnims := [RunningAnim.mk s.nextAnimId AnimKind.entrance]
          nextAnimId := s.nextAnimId + 1
          trace := s.trace ++ [Act.evShow, Act.animStart AnimKind.entrance]
          ticks := s.ticks + 1 }, true) := by
  simp [BsModalElement.«show», getFocusElement, cancelAnims, h]

theorem hide_of_closed {s : ModalState} (h : s.isOpen = false) :
    BsModalElement.hide s = (s, false) := by
  simp [BsModalElement.hide, h]

theorem hide_of_open {s : ModalState} (h : s.isOpen = true) :
    BsModalElement.hide s =
      ({ s with
          bodyModalOpen := false
          isOpen := false
          containerAnims := [RunningAnim.mk s.nextAnimId AnimKind.exit]
          nextAnimId := s.nextAnimId + 1
          trace := s.trace ++ [Act.evHide, Act.animStart AnimKind.exit] }, true) := by
  simp [BsModalElement.hide, cancelAnims, h]

theorem mem_of_length_le_one {l : List RunningAnim} {a : RunningAnim}
    (h : a ∈ l) (hl : l.length ≤ 1) : l = [a] := by
  cases l with
  | nil => cases h
  | cons b t =>
    cases t with
    | nil => simp at h; simp [h]
    | cons c u => simp at hl

theorem inv_show {s : ModalState} (h : Inv s) : Inv (BsModalElement.«show» s).1 := by
  cases hOpen : s.isOpen with
  | true => rw [show_of_open hOpen]; exact h
  | false => rw [show_of_closed hOpen]; simp [Inv]

theorem inv_hide {s : ModalState} (h : Inv s) : Inv (BsModalElement.hide s).1 := by
  cases hOpen : s.isOpen with
  | false => rw [hide_of_closed hOpen]; exact h
  | true =>
    rw [hide_of_open hOpen]
    rcases h with ⟨h1, -⟩
    rcases h1 with h1 | h1
    · rw [hOpen] at h1; cases h1
    · simp [Inv, h1]

theorem inv_step {s : ModalState} (l : Label) (h : Inv s) : Inv (step s l) := by
  cases l with
  | callShow => exact inv_show h
  | callHide => exact inv_hide h
  | callToggle =>
    simp only [step, BsModalElement.toggle]
    cases hOpen : s.isOpen with
    | true => simpa [hOpen] using inv_hide h
    | false => simpa [hOpen] using inv_show h
  | clickDismiss m =>
    simp only [step, BsModalElement.clickHandler]
    split
    · exact inv_hide h
    · exact h
  | clickBackdrop =>
    simp only [step, BsModalElement.clickBackdropHandler]
    split
    · exact inv_hide h
    · exact h
  | keydown key =>
    simp only [step, BsModalElement.keyHandler]
    split
    · exact inv_hide h
    · exact h
  | focusin t inside =>
    simp only [step, BsModalElement.focusinHandler]
    split
    · rcases h with ⟨h1, h2, h3, h4, h5⟩
      exact ⟨h1, h2, h3, h4, h5⟩
    · exact h
  | setBackdrop v =>
    rcases h with ⟨h1, h2, h3, h4, h5⟩
    exact ⟨h1, h2, h3, h4, h5⟩
  | setKeyboard v =>
    rcases h with ⟨h1, h2, h3, h4, h5⟩
    exact ⟨h1, h2, h3, h4, h5⟩
  | tickFire =>
    simp only [step]
    split
    · exact h
    · rcases h with ⟨h1, h2, h3, h4, h5⟩
      exact ⟨h1, h2, h3, h4, h5⟩
  | finish id =>
    simp only [step]
    cases hFind : s.containerAnims.find? (fun a => a.id == id) with
    | none => exact h
    | some a =>
      have hMem : a ∈ s.containerAnims := List.mem_of_find?_eq_some hFind
      have hId : a.id = id := by
        have := List.find?_some hFind
        simpa using this
      rcases h with ⟨h1, h2, h3, h4, h5⟩
      have hSingle : s.containerAnims = [a] := mem_of_length_le_one hMem h2
      have hFilter : s.containerAnims.filter (fun b => !(b.id == id)) = [] := by
        rw [hSingle]
        simp [List.filter, hId]
      cases hKind : a.kind with
      | entrance =>
        have hFlags := h4 a hMem hKind
        simp only [BsModalElement.finishCont, hKind, hFilter]
        exact ⟨Or.inr hFlags.2, by simp, by simp, by simp, by simp⟩
      | exit =>
        have hFlags := h5 a hMem hKind
        simp only [BsModalElement.finishCont, hKind, hFilter]
        cases hPrev : s.prevFocusElement with
        | some e =>
          simp only [hPrev]
          exact ⟨Or.inl hFlags.1, by simp, by simp, by simp, by simp⟩
        | none =>
          simp only [hPrev]
          exact ⟨Or.inl hFlags.1, by simp, by simp, by simp, by simp⟩

theorem reachable_inv {s : ModalState} (h : Reachable s) : Inv s := by
  induction h with
  | init f => exact inv_init f
  | step l _ ih => exact inv_step l ih

end BsModal
namespace BsModal

theorem show_trace_cases (s : ModalState) :
    (BsModalElement.«show» s).1.trace = s.trace ∨
    (BsModalElement.«show» s).1.trace
      = s.trace ++ [Act.evShow, Act.animStart AnimKind.entrance] := by
  cases hOpen : s.isOpen with
  | false => right; rw [show_of_closed hOpen]
  | true => left; rw [show_of_open hOpen]

theorem hide_trace_cases (s : ModalState) :
    (BsModalElement.hide s).1.trace = s.trace ∨
    (BsModalElement.hide s).1.trace
      = s.trace ++ [Act.evHide, Act.animStart AnimKind.exit] := by
  cases hOpen : s.isOpen with
  | false => left; rw [hide_of_closed hOpen]
  | true => right; rw [hide_of_open hOpen]

theorem trace_step_cases (s : ModalState) (l : Label) :
    (step s l).trace = s.trace ∨
    (step s l).trace = s.trace ++ [Act.evShow, Act.animStart AnimKind.entrance] ∨
    (step s l).trace = s.trace ++ [Act.evHide, Act.animStart AnimKind.exit] ∨
    (∃ a, a ∈ s.containerAnims ∧ a.kind = AnimKind.entrance ∧ l = Label.finish a.id ∧
      (step s l).trace = s.trace ++ [Act.evShown]) ∨
    (∃ a, a ∈ s.containerAnims ∧ a.kind = AnimKind.exit ∧ l = Label.finish a.id ∧
      (step s l).trace = s.trace ++ [Act.evHidden]) := by
  cases l with
  | callShow =>
    rcases show_trace_cases s with h | h
    · exact Or.inl h
    · exact Or.inr (Or.inl h)
  | callHide =>
    rcases hide_trace_cases s with h | h
    · exact Or.inl h
    · exact Or.inr (Or.inr (Or.inl h))
  | callToggle =>
    simp only [step, BsModalElement.toggle]
    split
    · rcases hide_trace_cases s with h | h
      · exact Or.inl h
      · exact Or.inr (Or.inr (Or.inl h))
    · rcases show_trace_cases s with h | h
      · exact Or.inl h
      · exact Or.inr (Or.inl h)
  | clickDismiss m =>
    simp only [step, BsModalElement.clickHandler]
    split
    · rcases hide_trace_cases s with h | h
      · exact Or.inl h
      · exact Or.inr (Or.inr (Or.inl h))
    · exact Or.inl rfl
  | clickBackdrop =>
    simp only [step, BsModalElement.clickBackdropHandler]
    split
    · rcases hide_trace_cases s with h | h
      · exact Or.inl h
      · exact Or.inr (Or.inr (Or.inl h))
    · exact Or.inl rfl
  | keydown key =>
    simp only [step, BsModalElement.keyHandler]
    split
    · rcases hide_trace_cases s with h | h
      · exact Or.inl h
      · exact Or.inr (Or.inr (Or.inl h))
    · exact Or.inl rfl
  | focusin t inside =>
    simp only [step, BsModalElement.focusinHandler]
    split
    · exact Or.inl rfl
    · exact Or.inl rfl
  | setBackdrop v => exact Or.inl rfl
  | setKeyboard v => exact Or.inl rfl
  | tickFire =>
    simp only [step]
    split
    · exact Or.inl rfl
    · exact Or.inl rfl
  | finish id =>
    simp only [step]
    cases hFind : s.containerAnims.find? (fun a => a.id == id) with
    | none => exact Or.inl rfl
    | some a =>
      have hMem : a ∈ s.containerAnims := List.mem_of_find?_eq_some hFind
      have hId : a.id = id := by
        have := List.find?_some hFind
        simpa using this
      cases hKind : a.kind with
      | entrance =>
        refine Or.inr (Or.inr (Or.inr (Or.inl ⟨a, hMem, hKind, by rw [hId], ?_⟩)))
        simp [BsModalElement.finishCont, hKind]
      | exit =>
        refine Or.inr (Or.inr (Or.inr (Or.inr ⟨a, hMem, hKind, by rw [hId], ?_⟩)))
        cases hPrev : s.prevFocusElement with
        | some e => simp [BsModalElement.finishCont, hKind, hPrev]
        | none => simp [BsModalElement.finishCont, hKind, hPrev]

theorem shown_step_source {s : ModalState} {l : Label}
    (h : Act.evShown ∈ (step s l).trace) :
    Act.evShown ∈ s.trace ∨
    ∃ a, a ∈ s.containerAnims ∧ a.kind = AnimKind.entrance ∧ l = Label.finish a.id := by
  rcases trace_step_cases s l with h1 | h1 | h1 | ⟨a, hm, hk, hl, h1⟩ | ⟨a, hm, hk, hl, h1⟩
  · rw [h1] at h; exact Or.inl h
  · rw [h1] at h; simp at h; exact Or.inl h
  · rw [h1] at h; simp at h; exact Or.inl h
  · exact Or.inr ⟨a, hm, hk, hl⟩
  · rw [h1] at h; simp at h; exact Or.inl h

theorem hidden_step_source {s : ModalState} {l : Label}
    (h : Act.evHidden ∈ (step s l).trace) :
    Act.evHidden ∈ s.trace ∨
    ∃ a, a ∈ s.containerAnims ∧ a.kind = AnimKind.exit ∧ l = Label.finish a.id := by
  rcases trace_step_cases s l with h1 | h1 | h1 | ⟨a, hm, hk, hl, h1⟩ | ⟨a, hm, hk, hl, h1⟩
  · rw [h1] at h; exact Or.inl h
  · rw [h1] at h; simp at h; exact Or.inl h
  · rw [h1] at h; simp at h; exact Or.inl h
  · rw [h1] at h; simp at h; exact Or.inl h
  · exact Or.inr ⟨a, hm, hk, hl⟩

end BsModal
namespace BsModal

/-- **C1.** `show()` on an already-open modal returns `false`, changes no
state and dispatches no event (so a second consecutive `show()` causes no
duplicate `show` event); on a non-open modal it captures the focused element
into `_prevFocusElement`, sets `isOpen = true` and `isClosed = false`, adds
the `modal-open` class to the document body, cancels every running animation
on the container (only the freshly started entrance animation remains),
dispatches `show`, starts the entrance animation, and returns `true`. -/
theorem show_spec (s : ModalState) :
    (s.isOpen = true → BsModalElement.«show» s = (s, false)) ∧
    (s.isOpen = false →
      (BsModalElement.«show» s).2 = true ∧
      (BsModalElement.«show» s).1.prevFocusElement = s.focused ∧
      (BsModalElement.«show» s).1.isOpen = true ∧
      (BsModalElement.«show» s).1.isClosed = false ∧
      (BsModalElement.«show» s).1.bodyModalOpen = true ∧
      (BsModalElement.«show» s).1.containerAnims
        = [RunningAnim.mk s.nextAnimId AnimKind.entrance] ∧
      (BsModalElement.«show» s).1.trace
        = s.trace ++ [Act.evShow, Act.animStart AnimKind.entrance]) := by
  constructor
  · intro h
    exact show_of_open h
  · intro h
    rw [show_of_closed h]
    simp

/-- Witness for `show_spec`: in the concrete scenario the first `show()`
succeeds and the second one is the no-op `(sOpen, false)`. -/
theorem show_spec_witness :
    (BsModalElement.«show» sInit).2 = true ∧
    BsModalElement.«show» sOpen = (sOpen, false) :=
  ⟨((show_spec sInit).2 (by decide)).1, (show_spec sOpen).1 (by decide)⟩

/-- **C2 counterexample.** The claim reads the guard as "already closed": in
the reachable transient closing state `sClosing` (`isOpen = false`,
`isClosed = false`) the modal is *not* already closed, so the claim's
"otherwise" branch asserts that `hide()` dispatches `hide` and returns
`true`; the code's guard tests `isOpen` and returns `false` without any state
change. -/
theorem hide_guard_counterexample :
    Reachable sClosing ∧
    sClosing.isOpen = false ∧
    sClosing.isClosed = false ∧
    BsModalElement.hide sClosing = (sClosing, false) := by
  refine ⟨?_, by decide, by decide, by decide⟩
  exact Reachable.step Label.callHide
    (Reachable.step Label.callShow (Reachable.init (some (FocusTarget.elem 0))))

/-- **C2 (amended).** `hide()` returns `false` and changes nothing whenever
`isOpen` is `false` (modal closed *or* in the transient closing state);
when `isOpen` is `true` it removes the body marker class, sets
`isOpen = false`, cancels any running animation (only the freshly started
exit animation remains), dispatches `hide`, starts the exit animation, and
returns `true`. -/
theorem hide_spec (s : ModalState) :
    (s.isOpen = false → BsModalElement.hide s = (s, false)) ∧
    (s.isOpen = true →
      (BsModalElement.hide s).2 = true ∧
      (BsModalElement.hide s).1.bodyModalOpen = false ∧
      (BsModalElement.hide s).1.isOpen = false ∧
      (BsModalElement.hide s).1.containerAnims
        = [RunningAnim.mk s.nextAnimId AnimKind.exit] ∧
      (BsModalElement.hide s).1.trace
        = s.trace ++ [Act.evHide, Act.animStart AnimKind.exit]) := by
  constructor
  · intro h
    exact hide_of_closed h
  · intro h
    rw [hide_of_open h]
    simp

/-- Witness for `hide_spec`: in the concrete scenario `hide()` on the open
modal succeeds and `hide()` on the fully closed modal is a no-op. -/
theorem hide_spec_witness :
    (BsModalElement.hide sOpen).2 = true ∧
    BsModalElement.hide sClosed = (sClosed, false) :=
  ⟨((hide_spec sOpen).2 (by decide)).1, (hide_spec sClosed).1 (by decide)⟩

/-- **C9.** `hide()` called in the transient closing state
(`isOpen = false`, `isClosed = false`) returns `false` and changes nothing —
the guard tests `isOpen`, which is already `false`, not `isClosed`. -/
theorem hide_in_closing_state (s : ModalState)
    (hOpen : s.isOpen = false) (hClosed : s.isClosed = false) :
    BsModalElement.hide s = (s, false) :=
  hide_of_closed hOpen

/-- Witness for `hide_in_closing_state` at the reachable closing state of the
concrete scenario. -/
theorem hide_in_closing_state_witness :
    BsModalElement.hide sClosing = (sClosing, false) :=
  hide_in_closing_state sClosing (by decide) (by decide)

/-- **C4 counterexample.** The claim says the promise returned by
`showAnim`/`hideAnim` *resolves* (with the animation handle) when the
animation is aborted. In the source the executor is
`anim.finished.then(() => resolve(anim)).catch(() => {})`: on abort the
rejection is swallowed by the no-op catch handler and `resolve` is never
called, so at the concrete aborted animation `0` the promise is still
pending, not resolved. -/
theorem aborted_anim_counterexample :
    showAnimResult 0 AnimOutcome.aborted = PromiseState.pending ∧
    ¬showAnimResult 0 AnimOutcome.aborted = PromiseState.resolved 0 ∧
    hideAnimResult 0 AnimOutcome.aborted = PromiseState.pending ∧
    ¬hideAnimResult 0 AnimOutcome.aborted = PromiseState.resolved 0 := by
  refine ⟨rfl, by decide, rfl, by decide⟩

/-- **C4 (amended).** The promise returned by `showAnim` (resp. `hideAnim`)
resolves with the animation handle when the animation completes naturally;
when the animation is aborted/canceled the rejection of `anim.finished` is
swallowed by the no-op catch handler and the returned promise never settles —
it does not reject (cancellation is not surfaced as failure) and it does not
resolve either. -/
theorem anim_promise_settlement (anim : Nat) (o : AnimOutcome) :
    (o = AnimOutcome.finished →
      showAnimResult anim o = PromiseState.resolved anim ∧
      hideAnimResult anim o = PromiseState.resolved anim) ∧
    (o = AnimOutcome.aborted →
      showAnimResult anim o = PromiseState.pending ∧
      hideAnimResult anim o = PromiseState.pending) ∧
    ¬showAnimResult anim o = PromiseState.rejected ∧
    ¬hideAnimResult anim o = PromiseState.rejected := by
  cases o <;>
    simp [showAnimResult, hideAnimResult, animFinished, animPromiseExecutorResolve,
      settleByResolve]

/-- Witness for `anim_promise_settlement` at animation handle `3`. -/
theorem anim_promise_settlement_witness :
    showAnimResult 3 AnimOutcome.finished = PromiseState.resolved 3 ∧
    hideAnimResult 3 AnimOutcome.aborted = PromiseState.pending :=
  ⟨((anim_promise_settlement 3 AnimOutcome.finished).1 rfl).1,
    ((anim_promise_settlement 3 AnimOutcome.aborted).2.1 rfl).2⟩

end BsModal
namespace BsModal

/-- **C3.** In every reachable state the two flags are never both `true`; the
transient closing state (`isOpen = false`, `isClosed = false`) is reachable;
and every entry point either leaves both flags unchanged or acts through
`show()`, `hide()`, or the hide-animation completion continuation (the only
running exit animation finishing). -/
theorem flags_mutation_invariant :
    (∀ s, Reachable s → ¬(s.isOpen = true ∧ s.isClosed = true)) ∧
    (Reachable sClosing ∧ sClosing.isOpen = false ∧ sClosing.isClosed = false) ∧
    (∀ s l, ((step s l).isOpen = s.isOpen ∧ (step s l).isClosed = s.isClosed) ∨
      step s l = (BsModalElement.«show» s).1 ∨
      step s l = (BsModalElement.hide s).1 ∨
      ∃ a, a ∈ s.containerAnims ∧ a.kind = AnimKind.exit ∧ l = Label.finish a.id) := by
  refine ⟨?_, ⟨?_, by decide, by decide⟩, ?_⟩
  · intro s hs hBoth
    rcases (reachable_inv hs).1 with h | h
    · rw [hBoth.1] at h; cases h
    · rw [hBoth.2] at h; cases h
  · exact Reachable.step Label.callHide
      (Reachable.step Label.callShow (Reachable.init (some (FocusTarget.elem 0))))
  · intro s l
    cases l with
    | callShow => exact Or.inr (Or.inl rfl)
    | callHide => exact Or.inr (Or.inr (Or.inl rfl))
    | callToggle =>
      simp only [step, BsModalElement.toggle]
      split
      · exact Or.inr (Or.inr (Or.inl rfl))
      · exact Or.inr (Or.inl rfl)
    | clickDismiss m =>
      simp only [step, BsModalElement.clickHandler]
      split
      · exact Or.inr (Or.inr (Or.inl rfl))
      · exact Or.inl ⟨rfl, rfl⟩
    | clickBackdrop =>
      simp only [step, BsModalElement.clickBackdropHandler]
      split
      · exact Or.inr (Or.inr (Or.inl rfl))
      · exact Or.inl ⟨rfl, rfl⟩
    | keydown key =>
      simp only [step, BsModalElement.keyHandler]
      split
      · exact Or.inr (Or.inr (Or.inl rfl))
      · exact Or.inl ⟨rfl, rfl⟩
    | focusin t inside =>
      simp only [step, BsModalElement.focusinHandler]
      split
      · exact Or.inl ⟨rfl, rfl⟩
      · exact Or.inl ⟨rfl, rfl⟩
    | setBackdrop v => exact Or.inl ⟨rfl, rfl⟩
    | setKeyboard v => exact Or.inl ⟨rfl, rfl⟩
    | tickFire =>
      simp only [step]
      split
      · exact Or.inl ⟨rfl, rfl⟩
      · exact Or.inl ⟨rfl, rfl⟩
    | finish id =>
      simp only [step]
      cases hFind : s.containerAnims.find? (fun a => a.id == id) with
      | none => exact Or.inl ⟨rfl, rfl⟩
      | some a =>
        have hMem : a ∈ s.containerAnims := List.mem_of_find?_eq_some hFind
        have hId : a.id = id := by
          have := List.find?_some hFind
          simpa using this
        cases hKind : a.kind with
        | entrance =>
          refine Or.inl ?_
          simp [BsModalElement.finishCont, hKind]
        | exit =>
          exact Or.inr (Or.inr (Or.inr ⟨a, hMem, hKind, by rw [hId]⟩))

/-- Witness for `flags_mutation_invariant` at the reachable closing state. -/
theorem flags_mutation_invariant_witness :
    ¬(sClosing.isOpen = true ∧ sClosing.isClosed = true) :=
  flags_mutation_invariant.1 sClosing
    (Reachable.step Label.callHide
      (Reachable.step Label.callShow (Reachable.init (some (FocusTarget.elem 0)))))

end BsModal
namespace BsModal

/-- **C5.** In an accepted `show()` (resp. `hide()`) the `show` (resp.
`hide`) event is appended to the trace strictly before the entrance (resp.
exit) animation start, within the same synchronous turn; and `shown` (resp.
`hidden`) can be appended to the trace only by the turn in which the entrance
(resp. exit) animation's finish continuation runs. -/
theorem event_ordering (s : ModalState) :
    (s.isOpen = false →
      (BsModalElement.«show» s).1.trace
        = s.trace ++ [Act.evShow, Act.animStart AnimKind.entrance]) ∧
    (s.isOpen = true →
      (BsModalElement.hide s).1.trace
        = s.trace ++ [Act.evHide, Act.animStart AnimKind.exit]) ∧
    (∀ l, Act.evShown ∈ (step s l).trace →
      Act.evShown ∈ s.trace ∨
      ∃ a, a ∈ s.containerAnims ∧ a.kind = AnimKind.entrance ∧ l = Label.finish a.id) ∧
    (∀ l, Act.evHidden ∈ (step s l).trace →
      Act.evHidden ∈ s.trace ∨
      ∃ a, a ∈ s.containerAnims ∧ a.kind = AnimKind.exit ∧ l = Label.finish a.id) := by
  refine ⟨?_, ?_, ?_, ?_⟩
  · intro h
    rw [show_of_closed h]
  · intro h
    rw [hide_of_open h]
  · intro l h
    exact shown_step_source h
  · intro l h
    exact hidden_step_source h

/-- Witness for `event_ordering`: the concrete first `show()` appends exactly
`show` then the entrance-animation start, and the turn that takes `sClosing`
to `sClosed` appends `hidden` — a finish turn of the running exit
animation. -/
theorem event_ordering_witness :
    (BsModalElement.«show» sInit).1.trace
      = sInit.trace ++ [Act.evShow, Act.animStart AnimKind.entrance] ∧
    (Act.evHidden ∈ sClosing.trace ∨
      ∃ a, a ∈ sClosing.containerAnims ∧ a.kind = AnimKind.exit ∧
        Label.finish 1 = Label.finish a.id) :=
  ⟨(event_ordering sInit).1 (by decide),
    (event_ordering sClosing).2.2.2 (Label.finish 1) (by decide)⟩

/-- **C6.** The exit animation's completion continuation sets
`isClosed = true`, restores focus to `_prevFocusElement` when one was
captured (leaving focus alone otherwise), and dispatches `hidden`; `isOpen`
is `false` both before (by the invariant) and after the continuation. The
captured element is the one focused at the time of the accepted `show()`:
`show()` stores the focused element in `_prevFocusElement`, and `hide()`
leaves `_prevFocusElement` untouched. -/
theorem hidden_callback_spec (s : ModalState) (hInv : Inv s) :
    (∀ a, a ∈ s.containerAnims → a.kind = AnimKind.exit →
      (step s (Label.finish a.id)).isOpen = false ∧
      (step s (Label.finish a.id)).isClosed = true ∧
      (∀ e, s.prevFocusElement = some e → (step s (Label.finish a.id)).focused = some e) ∧
      (s.prevFocusElement = none → (step s (Label.finish a.id)).focused = s.focused) ∧
      (step s (Label.finish a.id)).trace = s.trace ++ [Act.evHidden]) ∧
    (s.isOpen = false → (BsModalElement.«show» s).1.prevFocusElement = s.focused) ∧
    (BsModalElement.hide s).1.prevFocusElement = s.prevFocusElement := by
  refine ⟨?_, ?_, ?_⟩
  · intro a hMem hKind
    have hOpen : s.isOpen = false := ((hInv.2.2.2.2) a hMem hKind).1
    have hSingle : s.containerAnims = [a] := mem_of_length_le_one hMem hInv.2.1
    have hFind : s.containerAnims.find? (fun b => b.id == a.id) = some a := by
      rw [hSingle]
      simp [List.find?]
    have hFilter : s.containerAnims.filter (fun b => !(b.id == a.id)) = [] := by
      rw [hSingle]
      simp [List.filter]
    simp only [step, hFind, hFilter, BsModalElement.finishCont, hKind]
    cases hPrev : s.prevFocusElement with
    | some e => simp [hPrev, hOpen]
    | none => simp [hPrev, hOpen]
  · intro h
    rw [show_of_closed h]
  · cases hOpen : s.isOpen with
    | false => rw [hide_of_closed hOpen]
    | true => rw [hide_of_open hOpen]

/-- Witness for `hidden_callback_spec`: in the concrete scenario (element 0
focused, `show()`, then `hide()`), finishing the exit animation closes the
modal, restores focus to element 0, and dispatches `hidden`. -/
theorem hidden_callback_spec_witness :
    (step sClosing (Label.finish 1)).isOpen = false ∧
    (step sClosing (Label.finish 1)).isClosed = true ∧
    (step sClosing (Label.finish 1)).focused = some (FocusTarget.elem 0) := by
  have h := (hidden_callback_spec sClosing (by unfold Inv; decide)).1
    (RunningAnim.mk 1 AnimKind.exit) (by decide) rfl
  exact ⟨h.1, h.2.1, h.2.2.1 (FocusTarget.elem 0) (by decide)⟩

end BsModal
namespace BsModal

/-- **C7 counterexample.** The claim says any backdrop/keyboard attribute
value other than the exact string `"true"`, *including absence*, disables the
dismissal trigger. In the source the properties are initialized to `'true'`,
so when the attribute is never set (the concrete scenario writes no
attribute) the property still reads `"true"` and a backdrop click *does*
close the open modal. -/
theorem absent_attr_counterexample :
    sOpen.backdrop = "true" ∧
    sOpen.isOpen = true ∧
    (step sOpen Label.clickBackdrop).isOpen = false ∧
    (step sOpen (Label.keydown "Escape")).isOpen = false := by
  refine ⟨by decide, by decide, by decide, by decide⟩

/-- **C7 (amended).** For an open modal, a backdrop click (resp. an Escape
key press) closes it iff the `backdrop` (resp. `keyboard`) property value is
exactly `"true"`; any other string value makes the handler a no-op. An absent
attribute leaves the property at its initializer `"true"`, which *enables*
the trigger. -/
theorem dismissal_attr_spec (s : ModalState) (hOpen : s.isOpen = true) :
    ((step s Label.clickBackdrop).isOpen = false ↔ s.backdrop = "true") ∧
    (¬s.backdrop = "true" → step s Label.clickBackdrop = s) ∧
    (∀ key, key = "Escape" ∨ key = "Esc" →
      ((step s (Label.keydown key)).isOpen = false ↔ s.keyboard = "true") ∧
      (¬s.keyboard = "true" → step s (Label.keydown key) = s)) ∧
    (∀ f, (initState f).backdrop = "true" ∧ (initState f).keyboard = "true") := by
  refine ⟨?_, ?_, ?_, fun f => ⟨rfl, rfl⟩⟩
  · constructor
    · intro h
      by_contra hB
      simp only [step, BsModalElement.clickBackdropHandler, if_neg hB] at h
      rw [hOpen] at h
      cases h
    · intro hB
      simp only [step, BsModalElement.clickBackdropHandler, if_pos hB]
      rw [hide_of_open hOpen]
  · intro hB
    simp only [step, BsModalElement.clickBackdropHandler, if_neg hB]
  · intro key hKey
    constructor
    · constructor
      · intro h
        by_contra hK
        simp only [step, BsModalElement.keyHandler] at h
        rw [if_neg (fun hc => hK hc.1)] at h
        rw [hOpen] at h
        cases h
      · intro hK
        simp only [step, BsModalElement.keyHandler, if_pos (And.intro hK hKey)]
        rw [hide_of_open hOpen]
    · intro hK
      simp only [step, BsModalElement.keyHandler]
      rw [if_neg (fun hc => hK hc.1)]

/-- Witness for `dismissal_attr_spec`: with the default (absent) attributes a
backdrop click closes the concrete open modal, and after setting
`keyboard="false"` an Escape press is a no-op. -/
theorem dismissal_attr_spec_witness :
    (step sOpen Label.clickBackdrop).isOpen = false ∧
    step (step sOpen (Label.setKeyboard "false")) (Label.keydown "Escape")
      = step sOpen (Label.setKeyboard "false") :=
  ⟨(dismissal_attr_spec sOpen (by decide)).1.mpr (by decide),
    (((dismissal_attr_spec (step sOpen (Label.setKeyboard "false")) (by decide)).2.2.1
      "Escape" (Or.inl rfl)).2 (by decide))⟩

end BsModal
namespace BsModal

theorem finishCont_exit_isOpen (s : ModalState) :
    (BsModalElement.finishCont AnimKind.exit s).isOpen = s.isOpen := by
  cases hPrev : s.prevFocusElement <;> simp [BsModalElement.finishCont, hPrev]

theorem finishCont_exit_isClosed (s : ModalState) :
    (BsModalElement.finishCont AnimKind.exit s).isClosed = true := by
  cases hPrev : s.prevFocusElement <;> simp [BsModalElement.finishCont, hPrev]

theorem finishCont_exit_trace (s : ModalState) :
    (BsModalElement.finishCont AnimKind.exit s).trace = s.trace ++ [Act.evHidden] := by
  cases hPrev : s.prevFocusElement <;> simp [BsModalElement.finishCont, hPrev]

/-- **C8.** `hide()` while the entrance animation is still running: the call
is accepted; every previously running animation (in particular the in-flight
entrance animation) is canceled before the exit animation starts, leaving the
exit animation as the only animation on the container; `containerAnims` never
holds more than one animation in any reachable state; finishing the exit
animation ends in the closed state with `hidden` dispatched; and the
interrupted entrance animation's promise never rejects (the abort error is
swallowed), so no unhandled rejection can arise. -/
theorem hide_cancels_running_anim (s : ModalState) (hInv : Inv s)
    (hOpen : s.isOpen = true) :
    (BsModalElement.hide s).2 = true ∧
    (∀ a, a ∈ s.containerAnims → a ∉ (BsModalElement.hide s).1.containerAnims) ∧
    (BsModalElement.hide s).1.containerAnims
      = [RunningAnim.mk s.nextAnimId AnimKind.exit] ∧
    (∀ t, Reachable t → t.containerAnims.length ≤ 1) ∧
    (step (BsModalElement.hide s).1 (Label.finish s.nextAnimId)).isOpen = false ∧
    (step (BsModalElement.hide s).1 (Label.finish s.nextAnimId)).isClosed = true ∧
    Act.evHidden ∈ (step (BsModalElement.hide s).1 (Label.finish s.nextAnimId)).trace ∧
    (∀ i, ¬showAnimResult i AnimOutcome.aborted = PromiseState.rejected) := by
  have hHide := hide_of_open hOpen
  have hFind : (BsModalElement.hide s).1.containerAnims.find?
      (fun b => b.id == s.nextAnimId) = some (RunningAnim.mk s.nextAnimId AnimKind.exit) := by
    rw [hHide]
    simp [List.find?]
  have hStep : step (BsModalElement.hide s).1 (Label.finish s.nextAnimId)
      = BsModalElement.finishCont AnimKind.exit
          { (BsModalElement.hide s).1 with
            containerAnims := (BsModalElement.hide s).1.containerAnims.filter
              (fun b => !(b.id == s.nextAnimId)) } := by
    simp only [step, hFind]
  refine ⟨?_, ?_, ?_, ?_, ?_, ?_, ?_, ?_⟩
  · rw [hHide]
  · intro a hMem
    rw [hHide]
    simp only [List.mem_singleton]
    intro hEq
    have hLt : a.id < s.nextAnimId := hInv.2.2.1 a hMem
    rw [hEq] at hLt
    exact Nat.lt_irrefl _ hLt
  · rw [hHide]
  · intro t ht
    exact (reachable_inv ht).2.1
  · rw [hStep, finishCont_exit_isOpen]
    rw [hHide]
  · rw [hStep, finishCont_exit_isClosed]
  · rw [hStep, finishCont_exit_trace]
    simp
  · intro i h
    cases h

/-- Witness for `hide_cancels_running_anim`: the concrete `hide()` while the
entrance animation runs is accepted, and finishing the exit animation it
started closes the modal. -/
theorem hide_cancels_running_anim_witness :
    (BsModalElement.hide sOpen).2 = true ∧
    (step (BsModalElement.hide sOpen).1 (Label.finish sOpen.nextAnimId)).isClosed
      = true := by
  have h := hide_cancels_running_anim sOpen (by unfold Inv; decide) (by decide)
  exact ⟨h.1, h.2.2.2.2.2.1⟩

/-- **C10.** When the entrance animation started by `show()` is canceled
before natural completion, `shown` is never dispatched for that call: the
promise returned by `showAnim` stays pending forever on abort, so its `then`
continuation never runs; after cancellation no animation remains on the
container; in particular a `hide()` that interrupts an in-flight entrance
animation removes it, and a completion turn for the canceled animation's id
is a no-op. In the concrete show–hide–finish scenario no `shown` event ever
appears in the trace. -/
theorem canceled_entrance_never_shown (s : ModalState) (hInv : Inv s) :
    (∀ i, showAnimResult i AnimOutcome.aborted = PromiseState.pending) ∧
    (∀ t, (cancelAnims t).containerAnims = []) ∧
    (∀ a, a ∈ s.containerAnims → a.kind = AnimKind.entrance →
      a ∉ (BsModalElement.hide s).1.containerAnims ∧
      step (BsModalElement.hide s).1 (Label.finish a.id) = (BsModalElement.hide s).1) ∧
    Act.evShown ∉ sClosed.trace := by
  refine ⟨fun i => rfl, fun t => rfl, ?_, by decide⟩
  intro a hMem hKind
  have hOpen : s.isOpen = true := (hInv.2.2.2.1 a hMem hKind).1
  have hLt : a.id < s.nextAnimId := hInv.2.2.1 a hMem
  have hHide := hide_of_open hOpen
  have hNe : (s.nextAnimId == a.id) = false := beq_eq_false_iff_ne.mpr hLt.ne'
  constructor
  · rw [hHide]
    simp only [List.mem_singleton]
    intro hEq
    rw [hEq] at hLt
    exact Nat.lt_irrefl _ hLt
  · have hFindNone : (BsModalElement.hide s).1.containerAnims.find?
        (fun b => b.id == a.id) = none := by
      rw [hHide]
      simp [List.find?, hNe]
    simp only [step, hFindNone]

/-- Witness for `canceled_entrance_never_shown`: in the concrete scenario the
completion turn for the canceled entrance animation (id 0) is a no-op after
`hide()`. -/
theorem canceled_entrance_never_shown_witness :
    step (BsModalElement.hide sOpen).1 (Label.finish 0)
      = (BsModalElement.hide sOpen).1 :=
  ((canceled_entrance_never_shown sOpen (by unfold Inv; decide)).2.2.1
    (RunningAnim.mk 0 AnimKind.entrance) (by decide) rfl).2

end BsModal
